import Mathlib

/-!
Shallow embedding of the credit/charge ledger core of the repository
`mteen1/exchange-interview` (Django app `tbdl`).

The repository ships two parallel implementations of the transactional
operations:
* a DRF one in `tbdl/charge/api/views.py` (functions `create_credit_request`,
  `CreditRequestViewSet.perform_approve`, `create_charge_sale`,
  `ChargeSaleViewSet.validate_all`) with input validation in
  `tbdl/charge/api/serializers.py`;
* a django-ninja one in `tbdl/charge/api/router.py` (functions
  `create_credit_request`, `approve_transaction`, `create_charge`,
  `validate_transactions`) with input validation in its pydantic schemas.

Both are embedded below.  A `transaction.atomic()` block is modelled as a
pure function on a database snapshot: on an error raised inside the block
the original snapshot is returned (rollback); otherwise the mutated
snapshot is returned.  Django row `update` with `F()` expressions is
modelled as an in-place map over the corresponding table keyed on the id.
Machine integers are modelled as `Int` (Django `IntegerField` holds signed
integers; no claim depends on 32/64-bit overflow behaviour).
-/

namespace Tbdl

/-- From `tbdl/users/models.py`: `User` with `credit = IntegerField(default=0)`.
Fields not touched by the transactional core (username, name, ...) are
omitted. -/
structure User where
  id : Nat
  credit : Int
  deriving Repr, DecidableEq

/-- From `tbdl/charge/models.py`: `PhoneNumber` with `number` (unique),
`is_active` (default True) and `current_charge` (default 0). -/
structure PhoneNumber where
  id : Nat
  number : String
  is_active : Bool
  current_charge : Int
  deriving Repr, DecidableEq

/-- From `tbdl/charge/models.py`: `CreditRequest` (a `BaseTransaction`): `user`
foreign key, `amount`, `status` (default "PENDING"), `processed`
(default False). -/
structure CreditRequest where
  id : Nat
  user_id : Nat
  amount : Int
  status : String
  processed : Bool
  deriving Repr, DecidableEq

/-- From `tbdl/charge/models.py`: `ChargeSale` (a `BaseTransaction` plus a
`phone_number` foreign key). -/
structure ChargeSale where
  id : Nat
  user_id : Nat
  phone_number_id : Nat
  amount : Int
  status : String
  processed : Bool
  deriving Repr, DecidableEq

/-- The list `ChargeSale.STATUS_CHOICES` as declared in `tbdl/charge/models.py`
(overriding the base class's PENDING/APPROVED/REJECTED choices). -/
def ChargeSale.STATUS_CHOICES : List (String × String) :=
  [("PENDING", "Pending"), ("COMPLETED", "Completed"), ("FAILED", "Failed")]

/-- The list `BaseTransaction.STATUS_CHOICES` as declared in `tbdl/charge/models.py`;
`CreditRequest` inherits it. -/
def CreditRequest.STATUS_CHOICES : List (String × String) :=
  [("PENDING", "Pending"), ("APPROVED", "Approved"), ("REJECTED", "Rejected")]

/-- A snapshot of the four relevant tables. -/
structure DB where
  users : List User
  phones : List PhoneNumber
  creditRequests : List CreditRequest
  chargeSales : List ChargeSale
  deriving Repr, DecidableEq

/-- Lookup `User.objects.get(id=uid)` (first row with the given primary key). -/
def findUser (db : DB) (uid : Nat) : Option User :=
  db.users.find? (fun u => u.id == uid)

/-- Lookup `PhoneNumber.objects.get(id=pid)`. -/
def findPhone (db : DB) (pid : Nat) : Option PhoneNumber :=
  db.phones.find? (fun p => p.id == pid)

/-- Query `PhoneNumber.objects.filter(id=pid, is_active=True).first()` as used by
`ChargeSaleSerializer.validate`. -/
def findActivePhone (db : DB) (pid : Nat) : Option PhoneNumber :=
  (db.phones.filter (fun p => p.id == pid && p.is_active)).head?

/-- Lookup `CreditRequest.objects.get(id=rid)`. -/
def findCreditRequest (db : DB) (rid : Nat) : Option CreditRequest :=
  db.creditRequests.find? (fun c => c.id == rid)

/-- Update `User.objects.filter(id=uid).update(credit=F("credit") + delta)`:
relative update of the matching row, no read-modify-write. -/
def applyUserDelta (db : DB) (uid : Nat) (delta : Int) : DB :=
  { db with
      users := db.users.map (fun u =>
        if u.id == uid then { u with credit := u.credit + delta } else u) }

/-- Update `PhoneNumber.objects.filter(id=pid).update(current_charge=F("current_charge") + delta)`. -/
def applyPhoneDelta (db : DB) (pid : Nat) (delta : Int) : DB :=
  { db with
      phones := db.phones.map (fun p =>
        if p.id == pid then { p with current_charge := p.current_charge + delta } else p) }

/-- Effect of `credit_request.save()` after mutating the row object: replace the row
with the given primary key. -/
def saveCreditRequest (db : DB) (rid : Nat) (row : CreditRequest) : DB :=
  { db with
      creditRequests := db.creditRequests.map (fun c =>
        if c.id == rid then row else c) }

/-- The row mutation performed by both approval implementations:
`credit_request.status = "APPROVED"; credit_request.processed = True`. -/
def approvedRow (cr : CreditRequest) : CreditRequest :=
  { cr with status := "APPROVED", processed := true }

/-- Outcome of an `ApproveCreditRequest` call. -/
inductive ApproveOutcome where
  /-- Exception `CreditRequest.DoesNotExist` (or, in the DRF variant,
  `User.DoesNotExist` escaping the atomic block): rolled back. -/
  | notFound
  /-- the "Already processed" business outcome. -/
  | alreadyProcessed
  /-- success, carrying the returned (updated) credit request. -/
  | ok (cr : CreditRequest)
  deriving Repr, DecidableEq

/-- Function `CreditRequestViewSet.perform_approve` (`views.py`): inside
`transaction.atomic()`, lock and re-fetch the credit request and the owning
user; if `processed`, return the "Already processed" outcome; otherwise set
`status="APPROVED"`, `processed=True`, save, and increment the owner's
credit by the request's amount with an `F()` relative update. -/
def perform_approve (db : DB) (rid : Nat) : ApproveOutcome × DB :=
  match findCreditRequest db rid with
  | none => (.notFound, db)
  | some cr =>
    match findUser db cr.user_id with
    | none => (.notFound, db)
    | some _ =>
      if cr.processed then (.alreadyProcessed, db)
      else
        let cr2 := { cr with status := "APPROVED", processed := true }
        let db2 := saveCreditRequest db rid cr2
        let db3 := applyUserDelta db2 cr.user_id cr.amount
        (.ok cr2, db3)

/-- Function `approve_transaction` (`router.py`): inside `transaction.atomic()`, lock
the credit request row; if `processed`, return "Already processed";
otherwise set `status="APPROVED"`, `processed=True`, save, increment the
credit of the AUTHENTICATED CALLER (`request.auth.id`) — not of the
request's owner — and re-fetch and return the updated request. -/
def approve_transaction (db : DB) (callerId : Nat) (rid : Nat) :
    ApproveOutcome × DB :=
  match findCreditRequest db rid with
  | none => (.notFound, db)
  | some cr =>
    if cr.processed then (.alreadyProcessed, db)
    else
      let cr2 := { cr with status := "APPROVED", processed := true }
      let db2 := saveCreditRequest db rid cr2
      let db3 := applyUserDelta db2 callerId cr.amount
      match findCreditRequest db3 rid with
      | some refreshed => (.ok refreshed, db3)
      | none => (.notFound, db3)

/-- The `CreditRequest` row both creation implementations create
(`CreditRequest.objects.create(user=user, amount=amount)` with the model
defaults `status="PENDING"`, `processed=False`). -/
def creditRow (uid : Nat) (amount : Int) (rid : Nat) : CreditRequest :=
  { id := rid, user_id := uid, amount := amount
    status := "PENDING", processed := false }

/-- Outcome of a `CreateCreditRequest` call. -/
inductive CreditOutcome where
  /-- serializer / schema validation failed; nothing was written. -/
  | validationError (msg : String)
  /-- success, carrying the created row. -/
  | created (cr : CreditRequest)
  deriving Repr, DecidableEq

/-- DRF `CreditRequestViewSet.create`: `CreditRequestSerializer.validate_amount`
rejects `value <= 0`; then `create_credit_request` (`views.py`) creates a
`CreditRequest` row with the model defaults `status="PENDING"`,
`processed=False`.  `rid` is the fresh primary key assigned by the store. -/
def drfCreateCreditRequest (db : DB) (uid : Nat) (amount : Int) (rid : Nat) :
    CreditOutcome × DB :=
  if amount ≤ 0 then (.validationError "Amount must be greater than 0", db)
  else
    let cr : CreditRequest :=
      { id := rid, user_id := uid, amount := amount
        status := "PENDING", processed := false }
    (.created cr, { db with creditRequests := db.creditRequests ++ [cr] })

/-- ninja `create_credit_request` (`router.py`): `CreditRequestCreateSchema`
requires `amount > 0` (pydantic `Field(..., gt=0)`); then
`CreditRequest.objects.acreate` with the model defaults. -/
def routerCreateCreditRequest (db : DB) (uid : Nat) (amount : Int) (rid : Nat) :
    CreditOutcome × DB :=
  if amount ≤ 0 then (.validationError "amount must be greater than 0", db)
  else
    let cr : CreditRequest :=
      { id := rid, user_id := uid, amount := amount
        status := "PENDING", processed := false }
    (.created cr, { db with creditRequests := db.creditRequests ++ [cr] })

/-- The `ChargeSale` row both charge implementations create:
`ChargeSale.objects.create(user=user, phone_number_id=pid, amount=amount,
status="APPROVED", processed=True)`. -/
def chargeRow (uid : Nat) (amount : Int) (pid sid : Nat) : ChargeSale :=
  { id := sid, user_id := uid, phone_number_id := pid, amount := amount
    status := "APPROVED", processed := true }

/-- Outcome of a `CreateChargeSale` call. -/
inductive ChargeOutcome where
  /-- serializer / schema validation failed; nothing was written. -/
  | validationError (msg : String)
  /-- the "Insufficient credit" business outcome. -/
  | insufficientCredit
  /-- Exception from `User.objects.select_for_update().get`: `DoesNotExist`. -/
  | userNotFound
  /-- creating the `ChargeSale` row violated the `phone_number` foreign
  key (missing row); the atomic block rolls back. -/
  | integrityError
  /-- success, carrying the created row. -/
  | ok (cs : ChargeSale)
  deriving Repr, DecidableEq

/-- Function `create_charge_sale` (`views.py`): inside `transaction.atomic()`, lock
and re-fetch the user; if `user.credit < amount`, return "Insufficient
credit"; otherwise decrement the user's credit and increment the phone's
`current_charge` with `F()` relative updates and create the `ChargeSale`
row with `status="APPROVED"`, `processed=True`.  Creating the row with a
`phone_number_id` that matches no `PhoneNumber` raises an integrity error
and the whole block rolls back.  `sid` is the fresh primary key. -/
def create_charge_sale (db : DB) (uid : Nat) (amount : Int) (pid : Nat)
    (sid : Nat) : ChargeOutcome × DB :=
  match findUser db uid with
  | none => (.userNotFound, db)
  | some user =>
    if user.credit < amount then (.insufficientCredit, db)
    else
      let db2 := applyUserDelta db uid (-amount)
      let db3 := applyPhoneDelta db2 pid amount
      let cs : ChargeSale :=
        { id := sid, user_id := uid, phone_number_id := pid, amount := amount
          status := "APPROVED", processed := true }
      match findPhone db pid with
      | none => (.integrityError, db)
      | some _ => (.ok cs, { db3 with chargeSales := db3.chargeSales ++ [cs] })

/-- Function `create_charge` (`router.py`): textually the same transactional body as
`create_charge_sale` in `views.py` (lock user, check credit under the lock,
two `F()` relative updates, create the row APPROVED/processed). -/
def create_charge (db : DB) (uid : Nat) (amount : Int) (pid : Nat)
    (sid : Nat) : ChargeOutcome × DB :=
  match findUser db uid with
  | none => (.userNotFound, db)
  | some user =>
    if user.credit < amount then (.insufficientCredit, db)
    else
      let db2 := applyUserDelta db uid (-amount)
      let db3 := applyPhoneDelta db2 pid amount
      let cs : ChargeSale :=
        { id := sid, user_id := uid, phone_number_id := pid, amount := amount
          status := "APPROVED", processed := true }
      match findPhone db pid with
      | none => (.integrityError, db)
      | some _ => (.ok cs, { db3 with chargeSales := db3.chargeSales ++ [cs] })

/-- DRF `ChargeSaleViewSet.create`: `ChargeSaleSerializer.validate` first
requires an active `PhoneNumber` with the given id and a positive amount
(`ValidationError` otherwise, nothing written), then runs
`create_charge_sale`. -/
def drfCreateChargeSale (db : DB) (uid : Nat) (amount : Int) (pid : Nat)
    (sid : Nat) : ChargeOutcome × DB :=
  match findActivePhone db pid with
  | none => (.validationError "Invalid phone number", db)
  | some _ =>
    if amount ≤ 0 then (.validationError "Amount must be greater than 0", db)
    else create_charge_sale db uid amount pid sid

/-- ninja `create_charge_sale` endpoint (`router.py`):
`ChargeSaleCreateSchema` requires `amount > 0` (pydantic `Field(..., gt=0)`)
but does NOT check the phone number at all; then runs `create_charge`. -/
def routerCreateChargeSale (db : DB) (uid : Nat) (amount : Int) (pid : Nat)
    (sid : Nat) : ChargeOutcome × DB :=
  if amount ≤ 0 then (.validationError "amount must be greater than 0", db)
  else create_charge db uid amount pid sid

/-- The row filter used by both reconciliation endpoints:
`.filter(status="APPROVED", processed=True)`. -/
def txnCounted (status : String) (processed : Bool) : Bool :=
  status == "APPROVED" && processed

/-- Aggregate `CreditRequest.objects.filter(status="APPROVED", processed=True)
.aggregate(total=Sum("amount"))` with the trailing `or 0` (Django `Sum`
over an empty queryset is NULL; an empty sum is 0 here). -/
def approvedCreditsSum (db : DB) : Int :=
  ((db.creditRequests.filter (fun c => txnCounted c.status c.processed)).map
    (fun c => c.amount)).sum

/-- Aggregate `User.objects.aggregate(total=Sum("credit"))` with the trailing `or 0`. -/
def currentCreditsSum (db : DB) : Int :=
  (db.users.map (fun u => u.credit)).sum

/-- Aggregate `ChargeSale.objects.filter(status="APPROVED", processed=True)
.aggregate(total=Sum("amount"))` with the trailing `or 0`. -/
def chargeSalesSum (db : DB) : Int :=
  ((db.chargeSales.filter (fun s => txnCounted s.status s.processed)).map
    (fun s => s.amount)).sum

/-- The five figures plus detail string returned by the global validation
endpoints. -/
structure ValidationResult where
  total_approved_credits : Int
  current_user_credits : Int
  total_spent_credits : Int
  total_charge_sales : Int
  is_consistent : Bool
  details : String
  deriving Repr, DecidableEq

/-- Functions `validate_transactions` (`router.py`) and
`ChargeSaleViewSet.validate_all` (`views.py`): both compute the same five
figures from read-only aggregate queries; `is_consistent` is
`abs(total_spent_credits - total_charge_sales) == 0`.  No row is written. -/
def validate_transactions (db : DB) : ValidationResult :=
  let total_approved_credits := approvedCreditsSum db
  let current_user_credits := currentCreditsSum db
  let total_spent_credits := total_approved_credits - current_user_credits
  let total_charge_sales := chargeSalesSum db
  let is_consistent := (total_spent_credits - total_charge_sales).natAbs == 0
  { total_approved_credits := total_approved_credits
    current_user_credits := current_user_credits
    total_spent_credits := total_spent_credits
    total_charge_sales := total_charge_sales
    is_consistent := is_consistent
    details :=
      if is_consistent then "All transactions are consistent"
      else s!"Mismatch: Users spent {total_spent_credits} but charge sales total is {total_charge_sales}" }

/-- Per-user variant (`validate_user_transactions` in `router.py`,
`ChargeSaleViewSet.validate_user` in `views.py`): same figures scoped to
one user; `User.DoesNotExist` gives a 404 / not-found outcome. -/
def validate_user_transactions (db : DB) (uid : Nat) : Option ValidationResult :=
  match findUser db uid with
  | none => none
  | some user =>
    let total_approved_credits :=
      ((db.creditRequests.filter (fun c =>
          c.user_id == uid && txnCounted c.status c.processed)).map
        (fun c => c.amount)).sum
    let total_spent_credits := total_approved_credits - user.credit
    let total_charge_sales :=
      ((db.chargeSales.filter (fun s =>
          s.user_id == uid && txnCounted s.status s.processed)).map
        (fun s => s.amount)).sum
    let is_consistent := (total_spent_credits - total_charge_sales).natAbs == 0
    some
      { total_approved_credits := total_approved_credits
        current_user_credits := user.credit
        total_spent_credits := total_spent_credits
        total_charge_sales := total_charge_sales
        is_consistent := is_consistent
        details :=
          if is_consistent then "All transactions are consistent"
          else s!"Mismatch: User spent {total_spent_credits} but charge sales total is {total_charge_sales}" }

/-- Primary keys of the user table. -/
def userIds (db : DB) : List Nat := db.users.map (fun u => u.id)

/-- Primary keys of the credit-request table. -/
def crIds (db : DB) : List Nat := db.creditRequests.map (fun c => c.id)

/-- The operations the core exposes (both implementations of each
state-changing operation appear, since both are live endpoints of the
repository).  `uid`/`callerId` is the authenticated user's id; `rid`/`sid`
is the fresh primary key the store assigns to a created row. -/
inductive Op where
  | createCreditReqDRF (uid : Nat) (amount : Int) (rid : Nat)
  | createCreditReqRouter (uid : Nat) (amount : Int) (rid : Nat)
  | approveDRF (rid : Nat)
  | approveRouter (callerId : Nat) (rid : Nat)
  | chargeDRF (uid : Nat) (amount : Int) (pid : Nat) (sid : Nat)
  | chargeRouter (uid : Nat) (amount : Int) (pid : Nat) (sid : Nat)
  | validateGlobal
  | validateUser (uid : Nat)
  deriving Repr, DecidableEq

/-- State effect of one operation (the read-only validation endpoints
write nothing). -/
def applyOp (db : DB) : Op → DB
  | .createCreditReqDRF uid amount rid => (drfCreateCreditRequest db uid amount rid).2
  | .createCreditReqRouter uid amount rid => (routerCreateCreditRequest db uid amount rid).2
  | .approveDRF rid => (perform_approve db rid).2
  | .approveRouter callerId rid => (approve_transaction db callerId rid).2
  | .chargeDRF uid amount pid sid => (drfCreateChargeSale db uid amount pid sid).2
  | .chargeRouter uid amount pid sid => (routerCreateChargeSale db uid amount pid sid).2
  | .validateGlobal => db
  | .validateUser _ => db

/-- Environment-provided side conditions of an invocation: the caller is an
authenticated (hence existing) user, and the store assigns fresh primary
keys to created rows. -/
def ValidOp (db : DB) : Op → Prop
  | .createCreditReqDRF uid _ rid => uid ∈ userIds db ∧ rid ∉ crIds db
  | .createCreditReqRouter uid _ rid => uid ∈ userIds db ∧ rid ∉ crIds db
  | .approveDRF _ => True
  | .approveRouter callerId _ => callerId ∈ userIds db
  | .chargeDRF uid _ _ _ => uid ∈ userIds db
  | .chargeRouter uid _ _ _ => uid ∈ userIds db
  | .validateGlobal => True
  | .validateUser _ => True

/-- One valid invocation of one operation. -/
def StepRel (a b : DB) : Prop := ∃ op, ValidOp a op ∧ b = applyOp a op

/-- Predicate: `db` is reachable from `db0` by a finite sequence of valid operations. -/
def Reachable (db0 db : DB) : Prop := Relation.ReflTransGen StepRel db0 db

/-- A freshly provisioned state: no transaction rows yet, every user at the
model default `credit = 0`, and primary keys unique (as in any relational
store). -/
def InitState (db : DB) : Prop :=
  db.creditRequests = [] ∧ db.chargeSales = [] ∧
  (∀ u ∈ db.users, u.credit = 0) ∧ (userIds db).Nodup

/-- The inductive invariant of the ledger, relative to the total credit
`s0` held at the initial state: credits are non-negative, credit-request
amounts are positive (the serializers admit only positive amounts),
primary keys are unique, and the balance equation
`sum of credits = s0 + approved credit - completed sales` holds. -/
def Inv (s0 : Int) (db : DB) : Prop :=
  (∀ u ∈ db.users, 0 ≤ u.credit) ∧
  (∀ c ∈ db.creditRequests, 0 < c.amount) ∧
  (userIds db).Nodup ∧
  (crIds db).Nodup ∧
  currentCreditsSum db = s0 + approvedCreditsSum db - chargeSalesSum db

/-! Example databases used to instantiate theorems with hypotheses -/

/-- One user (id 1, credit 0) and one active phone number: a freshly
provisioned store. -/
def exDB0 : DB :=
  { users := [{ id := 1, credit := 0 }]
    phones := [{ id := 1, number := "9120000000", is_active := true, current_charge := 0 }]
    creditRequests := []
    chargeSales := [] }

/-- State `exDB0` after `CreateCreditRequest(user 1, amount 100)` (fresh id 1). -/
def exDB1 : DB := applyOp exDB0 (.createCreditReqDRF 1 100 1)

/-- State `exDB1` after `ApproveCreditRequest(request 1)`. -/
def exDB2 : DB := applyOp exDB1 (.approveDRF 1)

/-- State `exDB2` after `CreateChargeSale(user 1, amount 100, phone 1)` (fresh id 1). -/
def exDB3 : DB := applyOp exDB2 (.chargeDRF 1 100 1 1)

/-- Two users and a pending credit request owned by user 1. -/
def exDBtwo : DB :=
  { users := [{ id := 1, credit := 0 }, { id := 2, credit := 0 }]
    phones := []
    creditRequests := [{ id := 1, user_id := 1, amount := 100,
                         status := "PENDING", processed := false }]
    chargeSales := [] }

/-- One user with 50 credit and one INACTIVE phone number. -/
def exDBinactive : DB :=
  { users := [{ id := 1, credit := 50 }]
    phones := [{ id := 1, number := "9120000001", is_active := false,
                 current_charge := 0 }]
    creditRequests := []
    chargeSales := [] }

/-! Generic lemmas about updating the row with a given primary key

Django's `filter(id=k).update(...)` / fetch-mutate-`save()` on a
primary-key match is modelled as `List.map (fun a => if key a == k then g a
else a)`.  The lemmas below describe its effect on `find?`, on
memberships, on the key column and on sums, assuming the keys are unique
(primary keys) where needed. -/

theorem find?_eq_of_mem_nodup {α : Type} (key : α → Nat) :
    ∀ (L : List α) (k : Nat) (a : α), (L.map key).Nodup → a ∈ L → key a = k →
      L.find? (fun x => key x == k) = some a := by
  intro L
  induction L with
  | nil => intro k a _ h; cases h
  | cons h t ih =>
    intro k a hnd hmem hk
    simp only [List.map_cons, List.nodup_cons] at hnd
    rcases List.mem_cons.mp hmem with rfl | hmem'
    · simp [List.find?_cons, hk]
    · have hne : key h ≠ k := by
        intro he
        exact hnd.1 (he ▸ hk ▸ List.mem_map_of_mem key hmem')
      rw [List.find?_cons_of_neg _ (by simpa using hne)]
      exact ih k a hnd.2 hmem' hk

theorem find?_map_update {α : Type} (key : α → Nat) (g : α → α) (k : Nat)
    (hg : ∀ a, key a = k → key (g a) = k) :
    ∀ L : List α,
      (L.map (fun a => if key a == k then g a else a)).find? (fun x => key x == k)
        = (L.find? (fun x => key x == k)).map (fun a => if key a == k then g a else a) := by
  intro L
  induction L with
  | nil => simp
  | cons h t ih =>
    by_cases hk : key h = k
    · have hgk : key (g h) = k := hg h hk
      simp [List.find?_cons, hk, hgk]
    · have hk' : (key h == k) = false := by simp [hk]
      simp only [List.map_cons, hk', Bool.false_eq_true, if_false]
      rw [List.find?_cons_of_neg _ (by simp [hk']),
        List.find?_cons_of_neg _ (by simp [hk'])]
      exact ih

theorem map_key_update {α : Type} (key : α → Nat) (g : α → α) (k : Nat)
    (hg : ∀ a, key a = k → key (g a) = k) :
    ∀ L : List α,
      (L.map (fun a => if key a == k then g a else a)).map key = L.map key := by
  intro L
  induction L with
  | nil => simp
  | cons h t ih =>
    simp only [List.map_cons, ih]
    by_cases hk : key h = k
    · simp [hk, hg h hk]
    · have hk' : (key h == k) = false := by simp [hk]
      simp [hk']

theorem map_update_id {α : Type} (key : α → Nat) (g : α → α) :
    ∀ (L : List α) (k : Nat), k ∉ L.map key →
      L.map (fun a => if key a == k then g a else a) = L := by
  intro L
  induction L with
  | nil => simp
  | cons h t ih =>
    intro k hk
    simp only [List.map_cons, List.mem_cons, not_or] at hk
    have hk' : (key h == k) = false := by
      simp only [beq_eq_false_iff_ne, ne_eq]
      exact fun he => hk.1 he.symm
    simp only [List.map_cons, hk', Bool.false_eq_true, if_false]
    rw [ih k hk.2]

theorem mem_map_update_of_ne {α : Type} (key : α → Nat) (g : α → α) (k : Nat)
    (hg : ∀ a, key a = k → key (g a) = k) (L : List α) (v : α) (hv : key v ≠ k) :
    v ∈ L.map (fun a => if key a == k then g a else a) ↔ v ∈ L := by
  constructor
  · intro hmem
    rcases List.mem_map.mp hmem with ⟨a, ha, hav⟩
    by_cases hk : key a = k
    · rw [if_pos (by simpa using hk)] at hav
      exact absurd (hav ▸ hg a hk) hv
    · rw [if_neg (by simpa using hk)] at hav
      exact hav ▸ ha
  · intro hmem
    have hvv : (fun a => if key a == k then g a else a) v = v := by
      simp [if_neg (by simpa using hv)]
    exact hvv ▸ List.mem_map_of_mem _ hmem

theorem sum_map_update {α : Type} (key : α → Nat) (g : α → α) (val : α → Int) (k : Nat) :
    ∀ (L : List α) (u : α), (L.map key).Nodup →
      L.find? (fun x => key x == k) = some u →
      ((L.map (fun a => if key a == k then g a else a)).map val).sum
        = (L.map val).sum + (val (g u) - val u) := by
  intro L
  induction L with
  | nil => intro u _ h; simp at h
  | cons h t ih =>
    intro u hnd hfind
    simp only [List.map_cons, List.nodup_cons] at hnd
    by_cases hk : key h = k
    · rw [List.find?_cons_of_pos _ (by simpa using hk)] at hfind
      cases hfind
      have ht : t.map (fun a => if key a == k then g a else a) = t := by
        refine map_update_id key g t k ?_
        intro hmem
        exact hnd.1 (hk ▸ hmem)
      simp only [List.map_cons, ht, List.sum_cons, hk, beq_self_eq_true, if_true]
      ring
    · have hk' : (key h == k) = false := by simp [hk]
      rw [List.find?_cons_of_neg _ (by simp [hk'])] at hfind
      simp only [List.map_cons, hk', Bool.false_eq_true, if_false, List.sum_cons]
      rw [ih u hnd.2 hfind]
      ring

/-! Specialised corollaries for the three tables -/

theorem userIds_applyUserDelta (db : DB) (uid : Nat) (d : Int) :
    userIds (applyUserDelta db uid d) = userIds db := by
  unfold userIds applyUserDelta
  exact map_key_update (fun u => u.id) (fun u => { u with credit := u.credit + d }) uid
    (fun _ ha => ha) db.users

theorem crIds_saveCreditRequest (db : DB) (rid : Nat) (row : CreditRequest)
    (hrow : row.id = rid) :
    crIds (saveCreditRequest db rid row) = crIds db := by
  unfold crIds saveCreditRequest
  exact map_key_update (fun c => c.id) (fun _ => row) rid (fun _ _ => hrow) db.creditRequests

theorem findUser_applyUserDelta (db : DB) (uid : Nat) (d : Int) :
    findUser (applyUserDelta db uid d) uid
      = (findUser db uid).map (fun u =>
          if u.id == uid then { u with credit := u.credit + d } else u) := by
  unfold findUser applyUserDelta
  exact find?_map_update (fun u => u.id) (fun u => { u with credit := u.credit + d }) uid
    (fun _ ha => ha) db.users

theorem currentCreditsSum_applyUserDelta (db : DB) (uid : Nat) (d : Int) (u : User)
    (hnd : (userIds db).Nodup) (hu : findUser db uid = some u) :
    currentCreditsSum (applyUserDelta db uid d) = currentCreditsSum db + d := by
  unfold userIds at hnd
  unfold findUser at hu
  have h := sum_map_update (fun x => x.id) (fun x => { x with credit := x.credit + d })
    (fun x => x.credit) uid db.users u hnd hu
  unfold currentCreditsSum applyUserDelta
  rw [h]
  ring

theorem filter_sum_eq_contrib {α : Type} (p : α → Bool) (val : α → Int) :
    ∀ L : List α,
      ((L.filter p).map val).sum = (L.map (fun a => if p a then val a else 0)).sum := by
  intro L
  induction L with
  | nil => simp
  | cons h t ih =>
    by_cases hp : p h
    · simp [List.filter_cons, hp, ih]
    · simp [List.filter_cons, hp, ih]

theorem approvedCreditsSum_save (db : DB) (rid : Nat) (cr cr2 : CreditRequest)
    (hnd : (crIds db).Nodup) (hfind : findCreditRequest db rid = some cr)
    (_hid : cr2.id = rid) :
    approvedCreditsSum (saveCreditRequest db rid cr2)
      = approvedCreditsSum db
        + ((if txnCounted cr2.status cr2.processed then cr2.amount else 0)
            - (if txnCounted cr.status cr.processed then cr.amount else 0)) := by
  unfold crIds at hnd
  unfold findCreditRequest at hfind
  unfold approvedCreditsSum saveCreditRequest
  rw [filter_sum_eq_contrib, filter_sum_eq_contrib]
  exact sum_map_update (fun c => c.id) (fun _ => cr2)
    (fun c => if txnCounted c.status c.processed then c.amount else 0)
    rid db.creditRequests cr hnd hfind

theorem filter_map_sum_append {α : Type} (p : α → Bool) (val : α → Int)
    (L : List α) (x : α) :
    (((L ++ [x]).filter p).map val).sum
      = ((L.filter p).map val).sum + (if p x then val x else 0) := by
  by_cases hc : p x
  · simp [List.filter_append, List.filter_cons, hc]
  · simp [List.filter_append, List.filter_cons, hc]

theorem cr_id_of_find (db : DB) (rid : Nat) (cr : CreditRequest)
    (h : findCreditRequest db rid = some cr) : cr.id = rid := by
  unfold findCreditRequest at h
  simpa using List.find?_some h

theorem cr_mem_of_find (db : DB) (rid : Nat) (cr : CreditRequest)
    (h : findCreditRequest db rid = some cr) : cr ∈ db.creditRequests := by
  unfold findCreditRequest at h
  exact List.mem_of_find?_eq_some h

theorem user_id_of_find (db : DB) (uid : Nat) (u : User)
    (h : findUser db uid = some u) : u.id = uid := by
  unfold findUser at h
  simpa using List.find?_some h

theorem user_mem_of_find (db : DB) (uid : Nat) (u : User)
    (h : findUser db uid = some u) : u ∈ db.users := by
  unfold findUser at h
  exact List.mem_of_find?_eq_some h

theorem findUser_of_mem_userIds (db : DB) (target : Nat)
    (htarget : target ∈ userIds db) : ∃ w, findUser db target = some w := by
  unfold userIds at htarget
  rcases List.mem_map.mp htarget with ⟨w, hwmem, hwid⟩
  have hs : (db.users.find? (fun u => u.id == target)).isSome := by
    rw [List.find?_isSome]
    exact ⟨w, hwmem, by simpa using hwid⟩
  unfold findUser
  exact Option.isSome_iff_exists.mp hs

/-- The balance-mutating branch shared by both approval implementations
(save the APPROVED/processed row, then `credit = F("credit") + amount` on
the row of user `target`) preserves the invariant, for any target user
that exists — `views.py` passes the owner, `router.py` the caller. -/
theorem inv_approve_core (s0 : Int) (db : DB) (rid : Nat) (cr : CreditRequest)
    (target : Nat) (hinv : Inv s0 db)
    (hfc : findCreditRequest db rid = some cr)
    (hp : cr.processed = false) (htarget : target ∈ userIds db) :
    Inv s0 (applyUserDelta (saveCreditRequest db rid (approvedRow cr))
      target cr.amount) := by
  obtain ⟨hcred, hamt, hndU, hndCR, hacc⟩ := hinv
  have hcrid : cr.id = rid := cr_id_of_find db rid cr hfc
  have hcrmem : cr ∈ db.creditRequests := cr_mem_of_find db rid cr hfc
  have hpos : 0 < cr.amount := hamt cr hcrmem
  obtain ⟨w, hw⟩ := findUser_of_mem_userIds db target htarget
  refine ⟨?_, ?_, ?_, ?_, ?_⟩
  · intro v hv
    have hv' : v ∈ db.users.map (fun a =>
        if a.id == target then { a with credit := a.credit + cr.amount } else a) := hv
    rcases List.mem_map.mp hv' with ⟨a, ha, hav⟩
    by_cases hk : a.id = target
    · rw [if_pos (by simpa using hk)] at hav
      rw [← hav]
      show 0 ≤ a.credit + cr.amount
      have h0 := hcred a ha
      omega
    · rw [if_neg (by simpa using hk)] at hav
      rw [← hav]
      exact hcred a ha
  · intro v hv
    have hv' : v ∈ db.creditRequests.map (fun c =>
        if c.id == rid then approvedRow cr else c) := hv
    rcases List.mem_map.mp hv' with ⟨a, ha, hav⟩
    by_cases hk : a.id = rid
    · rw [if_pos (by simpa using hk)] at hav
      rw [← hav]
      show 0 < cr.amount
      exact hpos
    · rw [if_neg (by simpa using hk)] at hav
      rw [← hav]
      exact hamt a ha
  · rw [userIds_applyUserDelta]
    exact hndU
  · have h4 : crIds (applyUserDelta (saveCreditRequest db rid (approvedRow cr))
        target cr.amount) = crIds (saveCreditRequest db rid (approvedRow cr)) := rfl
    rw [h4, crIds_saveCreditRequest db rid (approvedRow cr) hcrid]
    exact hndCR
  · have hndU2 : (userIds (saveCreditRequest db rid (approvedRow cr))).Nodup := hndU
    have hw2 : findUser (saveCreditRequest db rid (approvedRow cr)) target = some w := hw
    have e1 := currentCreditsSum_applyUserDelta
      (saveCreditRequest db rid (approvedRow cr)) target cr.amount w hndU2 hw2
    have e1' : currentCreditsSum (saveCreditRequest db rid (approvedRow cr))
        = currentCreditsSum db := rfl
    have e2 := approvedCreditsSum_save db rid cr (approvedRow cr) hndCR hfc hcrid
    have hc2 : txnCounted (approvedRow cr).status (approvedRow cr).processed = true := by
      simp [approvedRow, txnCounted]
    have hc1 : txnCounted cr.status cr.processed = false := by
      simp [txnCounted, hp]
    rw [hc2, hc1] at e2
    norm_num at e2
    have e5 : (approvedRow cr).amount = cr.amount := rfl
    rw [e5] at e2
    have e3 : chargeSalesSum (applyUserDelta (saveCreditRequest db rid (approvedRow cr))
        target cr.amount) = chargeSalesSum db := rfl
    have e4 : approvedCreditsSum (applyUserDelta (saveCreditRequest db rid (approvedRow cr))
        target cr.amount) = approvedCreditsSum (saveCreditRequest db rid (approvedRow cr)) := rfl
    rw [e1, e1', e3, e4, e2]
    omega

theorem inv_perform_approve (s0 : Int) (db : DB) (rid : Nat) (hinv : Inv s0 db) :
    Inv s0 (perform_approve db rid).2 := by
  rcases hfc : findCreditRequest db rid with _ | cr
  · simpa [perform_approve, hfc] using hinv
  · rcases hfu : findUser db cr.user_id with _ | u
    · simpa [perform_approve, hfc, hfu] using hinv
    · by_cases hp : cr.processed
      · simpa [perform_approve, hfc, hfu, hp] using hinv
      · have h2 : (perform_approve db rid).2
            = applyUserDelta (saveCreditRequest db rid (approvedRow cr))
                cr.user_id cr.amount := by
          simp [perform_approve, hfc, hfu, hp, approvedRow]
        rw [h2]
        refine inv_approve_core s0 db rid cr cr.user_id hinv hfc (by simpa using hp) ?_
        have hmem := user_mem_of_find db cr.user_id u hfu
        have huid := user_id_of_find db cr.user_id u hfu
        unfold userIds
        exact huid ▸ List.mem_map_of_mem (fun x => x.id) hmem

theorem inv_approve_transaction (s0 : Int) (db : DB) (callerId rid : Nat)
    (hinv : Inv s0 db) (hcaller : callerId ∈ userIds db) :
    Inv s0 (approve_transaction db callerId rid).2 := by
  rcases hfc : findCreditRequest db rid with _ | cr
  · simpa [approve_transaction, hfc] using hinv
  · by_cases hp : cr.processed
    · simpa [approve_transaction, hfc, hp] using hinv
    · have hcore := inv_approve_core s0 db rid cr callerId hinv hfc
        (by simpa using hp) hcaller
      have h2 : (approve_transaction db callerId rid).2
          = applyUserDelta (saveCreditRequest db rid (approvedRow cr))
              callerId cr.amount := by
        unfold approve_transaction
        rw [hfc]
        simp only [hp, if_false, Bool.false_eq_true]
        rcases h3 : findCreditRequest
            (applyUserDelta (saveCreditRequest db rid
              { cr with status := "APPROVED", processed := true }) callerId cr.amount)
            rid with _ | r
        · simp [h3, approvedRow]
        · simp [h3, approvedRow]
      rw [h2]
      exact hcore

/-- The successful branch shared by both charge implementations (debit the
user, credit the phone's running total, append the APPROVED/processed
sale row) preserves the invariant. -/
theorem inv_charge_core (s0 : Int) (db : DB) (uid : Nat) (amount : Int)
    (pid sid : Nat) (user : User) (hinv : Inv s0 db)
    (hfu : findUser db uid = some user) (hlt : ¬ user.credit < amount) :
    Inv s0 { applyPhoneDelta (applyUserDelta db uid (-amount)) pid amount with
             chargeSales := db.chargeSales ++ [chargeRow uid amount pid sid] } := by
  obtain ⟨hcred, hamt, hndU, hndCR, hacc⟩ := hinv
  have hndU' : (db.users.map (fun x => x.id)).Nodup := hndU
  have hfu' : db.users.find? (fun u => u.id == uid) = some user := hfu
  refine ⟨?_, ?_, ?_, ?_, ?_⟩
  · intro v hv
    have hv' : v ∈ db.users.map (fun a =>
        if a.id == uid then { a with credit := a.credit + -amount } else a) := hv
    rcases List.mem_map.mp hv' with ⟨a, ha, hav⟩
    by_cases hk : a.id = uid
    · have hfa := find?_eq_of_mem_nodup (fun x => x.id) db.users uid a hndU' ha hk
      have ha_eq : a = user := by
        have hsome : some a = some user := by rw [← hfa]; exact hfu'
        exact Option.some.inj hsome
      rw [if_pos (by simpa using hk)] at hav
      rw [← hav]
      show 0 ≤ a.credit + -amount
      rw [ha_eq]
      omega
    · rw [if_neg (by simpa using hk)] at hav
      rw [← hav]
      exact hcred a ha
  · intro c hc
    exact hamt c hc
  · show (userIds (applyUserDelta db uid (-amount))).Nodup
    rw [userIds_applyUserDelta]
    exact hndU
  · exact hndCR
  · have e1 := currentCreditsSum_applyUserDelta db uid (-amount) user hndU hfu
    have e2 : (((db.chargeSales ++ [chargeRow uid amount pid sid]).filter
          (fun s => txnCounted s.status s.processed)).map (fun s => s.amount)).sum
        = ((db.chargeSales.filter (fun s => txnCounted s.status s.processed)).map
            (fun s => s.amount)).sum + amount := by
      rw [filter_map_sum_append]
      norm_num [chargeRow, txnCounted]
    show currentCreditsSum (applyUserDelta db uid (-amount))
        = s0 + approvedCreditsSum db
          - (((db.chargeSales ++ [chargeRow uid amount pid sid]).filter
              (fun s => txnCounted s.status s.processed)).map (fun s => s.amount)).sum
    rw [e1, e2]
    unfold chargeSalesSum at hacc
    omega

theorem inv_create_charge_sale (s0 : Int) (db : DB) (uid : Nat) (amount : Int)
    (pid sid : Nat) (hinv : Inv s0 db) :
    Inv s0 (create_charge_sale db uid amount pid sid).2 := by
  rcases hfu : findUser db uid with _ | user
  · simpa [create_charge_sale, hfu] using hinv
  · by_cases hlt : user.credit < amount
    · simpa [create_charge_sale, hfu, hlt] using hinv
    · rcases hfp : findPhone db pid with _ | ph
      · simpa [create_charge_sale, hfu, hlt, hfp] using hinv
      · have h2 : (create_charge_sale db uid amount pid sid).2
            = { applyPhoneDelta (applyUserDelta db uid (-amount)) pid amount with
                chargeSales := db.chargeSales ++ [chargeRow uid amount pid sid] } := by
          simp only [create_charge_sale, hfu, hlt, hfp, if_false, chargeRow]
          rfl
        rw [h2]
        exact inv_charge_core s0 db uid amount pid sid user hinv hfu hlt

theorem create_charge_eq (db : DB) (uid : Nat) (amount : Int) (pid sid : Nat) :
    create_charge db uid amount pid sid = create_charge_sale db uid amount pid sid := by
  unfold create_charge create_charge_sale
  rfl

theorem inv_drfCreateCreditRequest (s0 : Int) (db : DB) (uid : Nat) (amount : Int)
    (rid : Nat) (hinv : Inv s0 db) (hfresh : rid ∉ crIds db) :
    Inv s0 (drfCreateCreditRequest db uid amount rid).2 := by
  obtain ⟨hcred, hamt, hndU, hndCR, hacc⟩ := hinv
  by_cases ha : amount ≤ 0
  · simpa [drfCreateCreditRequest, ha] using ⟨hcred, hamt, hndU, hndCR, hacc⟩
  · have h2 : (drfCreateCreditRequest db uid amount rid).2
        = { db with creditRequests := db.creditRequests ++ [creditRow uid amount rid] } := by
      simp only [drfCreateCreditRequest, ha, if_false, creditRow]
    rw [h2]
    push_neg at ha
    refine ⟨hcred, ?_, hndU, ?_, ?_⟩
    · intro c hc
      rcases List.mem_append.mp hc with hc1 | hc2
      · exact hamt c hc1
      · have hc3 : c = creditRow uid amount rid := by simpa using hc2
        rw [hc3]
        exact ha
    · show (crIds { db with creditRequests := db.creditRequests ++ [creditRow uid amount rid] }).Nodup
      have e : crIds { db with creditRequests := db.creditRequests ++ [creditRow uid amount rid] }
          = crIds db ++ [rid] := by
        unfold crIds
        simp [creditRow]
      rw [e, List.nodup_append]
      refine ⟨hndCR, List.nodup_singleton rid, ?_⟩
      intro a haa hb
      have : a = rid := by simpa using hb
      exact hfresh (this ▸ haa)
    · show currentCreditsSum db
          = s0 + approvedCreditsSum { db with
              creditRequests := db.creditRequests ++ [creditRow uid amount rid] }
            - chargeSalesSum db
      have e : approvedCreditsSum { db with
          creditRequests := db.creditRequests ++ [creditRow uid amount rid] }
            = approvedCreditsSum db := by
        unfold approvedCreditsSum
        rw [filter_map_sum_append]
        norm_num [creditRow, txnCounted]
      rw [e]
      exact hacc

theorem routerCreateCredit_state_eq (db : DB) (uid : Nat) (amount : Int) (rid : Nat) :
    (routerCreateCreditRequest db uid amount rid).2
      = (drfCreateCreditRequest db uid amount rid).2 := by
  by_cases ha : amount ≤ 0
  · simp [routerCreateCreditRequest, drfCreateCreditRequest, ha]
  · simp [routerCreateCreditRequest, drfCreateCreditRequest, ha]

theorem inv_routerCreateCreditRequest (s0 : Int) (db : DB) (uid : Nat) (amount : Int)
    (rid : Nat) (hinv : Inv s0 db) (hfresh : rid ∉ crIds db) :
    Inv s0 (routerCreateCreditRequest db uid amount rid).2 := by
  rw [routerCreateCredit_state_eq]
  exact inv_drfCreateCreditRequest s0 db uid amount rid hinv hfresh

theorem inv_drfCreateChargeSale (s0 : Int) (db : DB) (uid : Nat) (amount : Int)
    (pid sid : Nat) (hinv : Inv s0 db) :
    Inv s0 (drfCreateChargeSale db uid amount pid sid).2 := by
  rcases hap : findActivePhone db pid with _ | ph
  · simpa [drfCreateChargeSale, hap] using hinv
  · by_cases ha : amount ≤ 0
    · simpa [drfCreateChargeSale, hap, ha] using hinv
    · have h2 : (drfCreateChargeSale db uid amount pid sid).2
          = (create_charge_sale db uid amount pid sid).2 := by
        simp [drfCreateChargeSale, hap, ha]
      rw [h2]
      exact inv_create_charge_sale s0 db uid amount pid sid hinv

theorem inv_routerCreateChargeSale (s0 : Int) (db : DB) (uid : Nat) (amount : Int)
    (pid sid : Nat) (hinv : Inv s0 db) :
    Inv s0 (routerCreateChargeSale db uid amount pid sid).2 := by
  by_cases ha : amount ≤ 0
  · simpa [routerCreateChargeSale, ha] using hinv
  · have h2 : (routerCreateChargeSale db uid amount pid sid).2
        = (create_charge_sale db uid amount pid sid).2 := by
      simp [routerCreateChargeSale, ha, create_charge_eq]
    rw [h2]
    exact inv_create_charge_sale s0 db uid amount pid sid hinv

theorem inv_applyOp (s0 : Int) (db : DB) (op : Op) (hinv : Inv s0 db)
    (hv : ValidOp db op) : Inv s0 (applyOp db op) := by
  cases op with
  | createCreditReqDRF uid amount rid =>
      exact inv_drfCreateCreditRequest s0 db uid amount rid hinv hv.2
  | createCreditReqRouter uid amount rid =>
      exact inv_routerCreateCreditRequest s0 db uid amount rid hinv hv.2
  | approveDRF rid => exact inv_perform_approve s0 db rid hinv
  | approveRouter callerId rid =>
      exact inv_approve_transaction s0 db callerId rid hinv hv
  | chargeDRF uid amount pid sid =>
      exact inv_drfCreateChargeSale s0 db uid amount pid sid hinv
  | chargeRouter uid amount pid sid =>
      exact inv_routerCreateChargeSale s0 db uid amount pid sid hinv
  | validateGlobal => exact hinv
  | validateUser uid => exact hinv

theorem inv_init (db0 : DB) (h0 : InitState db0) : Inv 0 db0 := by
  obtain ⟨hcr, hcs, hz, hnd⟩ := h0
  refine ⟨?_, ?_, hnd, ?_, ?_⟩
  · intro u hu
    rw [hz u hu]
  · intro c hc
    rw [hcr] at hc
    cases hc
  · unfold crIds
    rw [hcr]
    simp
  · have hS : currentCreditsSum db0 = 0 := by
      unfold currentCreditsSum
      apply List.sum_eq_zero
      intro x hx
      rcases List.mem_map.mp hx with ⟨u, hu, rfl⟩
      exact hz u hu
    have hA : approvedCreditsSum db0 = 0 := by
      unfold approvedCreditsSum
      rw [hcr]
      simp
    have hC : chargeSalesSum db0 = 0 := by
      unfold chargeSalesSum
      rw [hcs]
      simp
    rw [hS, hA, hC]
    ring

theorem inv_reachable (db0 db : DB) (h0 : InitState db0) (hr : Reachable db0 db) :
    Inv 0 db := by
  induction hr with
  | refl => exact inv_init db0 h0
  | tail _hab hbc ih =>
      rcases hbc with ⟨op, hvop, rfl⟩
      exact inv_applyOp 0 _ op ih hvop

/-! Behavioural lemmas about the approval operations -/

theorem perform_approve_eq (db : DB) (rid : Nat) (cr : CreditRequest) (u : User)
    (hfc : findCreditRequest db rid = some cr) (hp : cr.processed = false)
    (hu : findUser db cr.user_id = some u) :
    perform_approve db rid
      = (.ok (approvedRow cr),
         applyUserDelta (saveCreditRequest db rid (approvedRow cr))
           cr.user_id cr.amount) := by
  simp [perform_approve, hfc, hu, hp, approvedRow]

theorem findCreditRequest_after_approve (db : DB) (rid : Nat) (cr : CreditRequest)
    (target : Nat) (d : Int)
    (hfc : findCreditRequest db rid = some cr) :
    findCreditRequest
        (applyUserDelta (saveCreditRequest db rid (approvedRow cr)) target d) rid
      = some (approvedRow cr) := by
  have hcrid : cr.id = rid := cr_id_of_find db rid cr hfc
  show (db.creditRequests.map (fun c => if c.id == rid then approvedRow cr else c)).find?
      (fun c => c.id == rid) = some (approvedRow cr)
  rw [find?_map_update (fun c => c.id) (fun _ => approvedRow cr) rid
    (fun _ _ => hcrid) db.creditRequests]
  unfold findCreditRequest at hfc
  rw [hfc]
  simp [hcrid]

theorem approve_transaction_eq (db : DB) (callerId rid : Nat) (cr : CreditRequest)
    (hfc : findCreditRequest db rid = some cr) (hp : cr.processed = false) :
    approve_transaction db callerId rid
      = (.ok (approvedRow cr),
         applyUserDelta (saveCreditRequest db rid (approvedRow cr))
           callerId cr.amount) := by
  have hre := findCreditRequest_after_approve db rid cr callerId cr.amount hfc
  unfold approve_transaction
  rw [hfc]
  simp only [hp, Bool.false_eq_true, if_false]
  rw [show ({ cr with status := "APPROVED", processed := true } : CreditRequest)
      = approvedRow cr from rfl]
  rw [hre]

theorem findUser_after_approve (db : DB) (rid : Nat) (cr : CreditRequest) (u : User)
    (hu : findUser db cr.user_id = some u) :
    findUser (applyUserDelta (saveCreditRequest db rid (approvedRow cr))
        cr.user_id cr.amount) cr.user_id
      = some { u with credit := u.credit + cr.amount } := by
  have h := findUser_applyUserDelta (saveCreditRequest db rid (approvedRow cr))
    cr.user_id cr.amount
  rw [h]
  have hu2 : findUser (saveCreditRequest db rid (approvedRow cr)) cr.user_id = some u := hu
  rw [hu2]
  have huid : u.id = cr.user_id := user_id_of_find db cr.user_id u hu
  simp [huid]

theorem perform_approve_second (db' : DB) (rid : Nat) (cr2 : CreditRequest) (x : User)
    (hfc2 : findCreditRequest db' rid = some cr2) (hp2 : cr2.processed = true)
    (hux : findUser db' cr2.user_id = some x) :
    perform_approve db' rid = (.alreadyProcessed, db') := by
  simp [perform_approve, hfc2, hux, hp2]

theorem approve_transaction_second (db' : DB) (callerId rid : Nat) (cr2 : CreditRequest)
    (hfc2 : findCreditRequest db' rid = some cr2) (hp2 : cr2.processed = true) :
    approve_transaction db' callerId rid = (.alreadyProcessed, db') := by
  simp [approve_transaction, hfc2, hp2]

/-- Claim C3: approving the same request id twice: in both implementations
the first call applies the balance delta and returns the APPROVED row, the
second returns the "Already processed" business outcome (not a hard error)
and changes nothing — the processed flag goes false to true at most once
and the delta is applied exactly once. -/
theorem C3_approve_twice (db : DB) (rid callerId : Nat) (cr : CreditRequest) (u : User)
    (hfc : findCreditRequest db rid = some cr)
    (hp : cr.processed = false)
    (hu : findUser db cr.user_id = some u) :
    (perform_approve db rid).1 = .ok (approvedRow cr)
    ∧ findUser (perform_approve db rid).2 cr.user_id
        = some { u with credit := u.credit + cr.amount }
    ∧ perform_approve (perform_approve db rid).2 rid
        = (.alreadyProcessed, (perform_approve db rid).2)
    ∧ (approve_transaction db callerId rid).1 = .ok (approvedRow cr)
    ∧ approve_transaction (approve_transaction db callerId rid).2 callerId rid
        = (.alreadyProcessed, (approve_transaction db callerId rid).2) := by
  have h1 := perform_approve_eq db rid cr u hfc hp hu
  have h2 := approve_transaction_eq db callerId rid cr hfc hp
  have hproc : (approvedRow cr).processed = true := rfl
  refine ⟨by rw [h1], ?_, ?_, by rw [h2], ?_⟩
  · rw [h1]
    exact findUser_after_approve db rid cr u hu
  · rw [h1]
    refine perform_approve_second _ rid (approvedRow cr)
      { u with credit := u.credit + cr.amount } ?_ hproc ?_
    · exact findCreditRequest_after_approve db rid cr cr.user_id cr.amount hfc
    · exact findUser_after_approve db rid cr u hu
  · rw [h2]
    refine approve_transaction_second _ callerId rid (approvedRow cr) ?_ hproc
    exact findCreditRequest_after_approve db rid cr callerId cr.amount hfc

/-- Instantiation of Claim C3 on a concrete store: one user (credit 0) with
one pending credit request of amount 100, approved twice by user 1. -/
theorem C3_witness :
    (perform_approve exDB1 1).1 = .ok (approvedRow (creditRow 1 100 1))
    ∧ findUser (perform_approve exDB1 1).2 (creditRow 1 100 1).user_id
        = some { id := 1, credit := 0 + (100 : Int) }
    ∧ perform_approve (perform_approve exDB1 1).2 1
        = (.alreadyProcessed, (perform_approve exDB1 1).2)
    ∧ (approve_transaction exDB1 1 1).1 = .ok (approvedRow (creditRow 1 100 1))
    ∧ approve_transaction (approve_transaction exDB1 1 1).2 1 1
        = (.alreadyProcessed, (approve_transaction exDB1 1 1).2) :=
  C3_approve_twice exDB1 1 1 (creditRow 1 100 1) { id := 1, credit := 0 }
    (by decide) (by decide) (by decide)

/-! Behavioural lemmas about the charge-sale operations -/

theorem create_charge_sale_eq (db : DB) (uid : Nat) (amount : Int) (pid sid : Nat)
    (u : User) (ph : PhoneNumber)
    (hfu : findUser db uid = some u) (hlt : ¬ u.credit < amount)
    (hfp : findPhone db pid = some ph) :
    create_charge_sale db uid amount pid sid
      = (.ok (chargeRow uid amount pid sid),
         { applyPhoneDelta (applyUserDelta db uid (-amount)) pid amount with
           chargeSales := db.chargeSales ++ [chargeRow uid amount pid sid] }) := by
  simp only [create_charge_sale, hfu, hlt, if_false, hfp, chargeRow]
  rfl

theorem findPhone_applyPhoneDelta (db : DB) (pid : Nat) (d : Int) :
    findPhone (applyPhoneDelta db pid d) pid
      = (findPhone db pid).map (fun p =>
          if p.id == pid then { p with current_charge := p.current_charge + d } else p) := by
  unfold findPhone applyPhoneDelta
  exact find?_map_update (fun p => p.id)
    (fun p => { p with current_charge := p.current_charge + d }) pid
    (fun _ ha => ha) db.phones

theorem findPhone_of_active (db : DB) (pid : Nat) (ph : PhoneNumber)
    (hndP : (db.phones.map (fun p => p.id)).Nodup)
    (hap : findActivePhone db pid = some ph) :
    findPhone db pid = some ph ∧ ph.is_active = true ∧ ph.id = pid := by
  unfold findActivePhone at hap
  have hmem : ph ∈ db.phones.filter (fun p => p.id == pid && p.is_active) := by
    rcases hl : db.phones.filter (fun p => p.id == pid && p.is_active) with _ | ⟨x, xs⟩
    · rw [hl] at hap
      cases hap
    · rw [hl] at hap
      have hx : x = ph := by simpa using hap
      rw [hl, hx]
      exact List.mem_cons_self ph xs
  have hpred := List.of_mem_filter hmem
  have hmem2 := List.mem_of_mem_filter hmem
  simp only [Bool.and_eq_true, beq_iff_eq] at hpred
  refine ⟨?_, hpred.2, hpred.1⟩
  unfold findPhone
  exact find?_eq_of_mem_nodup (fun p => p.id) db.phones pid ph hndP hmem2 hpred.1

theorem drfCreateChargeSale_eq (db : DB) (uid : Nat) (amount : Int) (pid sid : Nat)
    (ph : PhoneNumber) (hap : findActivePhone db pid = some ph) (hpos : 0 < amount) :
    drfCreateChargeSale db uid amount pid sid = create_charge_sale db uid amount pid sid := by
  simp [drfCreateChargeSale, hap, show ¬ amount ≤ 0 by omega]

/-- Claim C4: a charge sale with a positive amount, an active phone number
and sufficient credit (boundary `credit == amount` included) debits exactly
`amount` from that user, credits exactly `amount` to that phone's running
total, appends one APPROVED/processed `ChargeSale` row, and touches no
other user, phone or credit request; the ninja `create_charge` body is the
same function as the DRF `create_charge_sale` body. -/
theorem C4_charge_sale_success (db : DB) (uid : Nat) (amount : Int) (pid sid : Nat)
    (u : User) (ph : PhoneNumber)
    (hfu : findUser db uid = some u) (hap : findActivePhone db pid = some ph)
    (hpos : 0 < amount) (hle : amount ≤ u.credit)
    (_hndU : (userIds db).Nodup) (hndP : (db.phones.map (fun p => p.id)).Nodup) :
    (drfCreateChargeSale db uid amount pid sid).1 = .ok (chargeRow uid amount pid sid)
    ∧ (drfCreateChargeSale db uid amount pid sid).2.chargeSales
        = db.chargeSales ++ [chargeRow uid amount pid sid]
    ∧ findUser (drfCreateChargeSale db uid amount pid sid).2 uid
        = some { u with credit := u.credit - amount }
    ∧ 0 ≤ u.credit - amount
    ∧ findPhone (drfCreateChargeSale db uid amount pid sid).2 pid
        = some { ph with current_charge := ph.current_charge + amount }
    ∧ (∀ v : User, v.id ≠ uid →
        (v ∈ (drfCreateChargeSale db uid amount pid sid).2.users ↔ v ∈ db.users))
    ∧ (∀ q : PhoneNumber, q.id ≠ pid →
        (q ∈ (drfCreateChargeSale db uid amount pid sid).2.phones ↔ q ∈ db.phones))
    ∧ (drfCreateChargeSale db uid amount pid sid).2.creditRequests = db.creditRequests
    ∧ create_charge db uid amount pid sid = create_charge_sale db uid amount pid sid := by
  obtain ⟨hfp, hact, hphid⟩ := findPhone_of_active db pid ph hndP hap
  have hlt : ¬ u.credit < amount := by omega
  have heq := create_charge_sale_eq db uid amount pid sid u ph hfu hlt hfp
  have hdrf := drfCreateChargeSale_eq db uid amount pid sid ph hap hpos
  rw [hdrf, heq]
  refine ⟨rfl, rfl, ?_, by omega, ?_, ?_, ?_, rfl,
    by rw [create_charge_eq db uid amount pid sid]; exact heq⟩
  · -- the charged user's row
    show findUser (applyUserDelta db uid (-amount)) uid
        = some { u with credit := u.credit - amount }
    rw [findUser_applyUserDelta, hfu]
    have huid : u.id = uid := user_id_of_find db uid u hfu
    simp [huid, sub_eq_add_neg]
  · -- the charged phone's row
    show findPhone (applyPhoneDelta { db with users := (applyUserDelta db uid (-amount)).users }
        pid amount) pid = some { ph with current_charge := ph.current_charge + amount }
    rw [findPhone_applyPhoneDelta]
    have hfp2 : findPhone { db with users := (applyUserDelta db uid (-amount)).users } pid
        = some ph := hfp
    rw [hfp2]
    simp [hphid]
  · intro v hv
    show v ∈ db.users.map (fun a =>
        if a.id == uid then { a with credit := a.credit + -amount } else a) ↔ v ∈ db.users
    exact mem_map_update_of_ne (fun a => a.id)
      (fun a => { a with credit := a.credit + -amount }) uid
      (fun _ ha => ha) db.users v hv
  · intro q hq
    show q ∈ db.phones.map (fun p =>
        if p.id == pid then { p with current_charge := p.current_charge + amount } else p)
        ↔ q ∈ db.phones
    exact mem_map_update_of_ne (fun p => p.id)
      (fun p => { p with current_charge := p.current_charge + amount }) pid
      (fun _ ha => ha) db.phones q hq

/-- Instantiation of Claim C4 at the boundary `credit == amount`: user 1
holds exactly 100 credit and buys a charge of 100. -/
theorem C4_witness :
    (drfCreateChargeSale exDB2 1 100 1 1).1 = .ok (chargeRow 1 100 1 1)
    ∧ (drfCreateChargeSale exDB2 1 100 1 1).2.chargeSales
        = exDB2.chargeSales ++ [chargeRow 1 100 1 1]
    ∧ findUser (drfCreateChargeSale exDB2 1 100 1 1).2 1
        = some { id := 1, credit := (100 : Int) - 100 }
    ∧ (0 : Int) ≤ (100 : Int) - 100
    ∧ findPhone (drfCreateChargeSale exDB2 1 100 1 1).2 1
        = some { id := 1, number := "9120000000", is_active := true,
                 current_charge := (0 : Int) + 100 }
    ∧ (∀ v : User, v.id ≠ 1 →
        (v ∈ (drfCreateChargeSale exDB2 1 100 1 1).2.users ↔ v ∈ exDB2.users))
    ∧ (∀ q : PhoneNumber, q.id ≠ 1 →
        (q ∈ (drfCreateChargeSale exDB2 1 100 1 1).2.phones ↔ q ∈ exDB2.phones))
    ∧ (drfCreateChargeSale exDB2 1 100 1 1).2.creditRequests = exDB2.creditRequests
    ∧ create_charge exDB2 1 100 1 1 = create_charge_sale exDB2 1 100 1 1 :=
  C4_charge_sale_success exDB2 1 100 1 1 { id := 1, credit := 100 }
    { id := 1, number := "9120000000", is_active := true, current_charge := 0 }
    (by decide) (by decide) (by decide) (by decide) (by decide) (by decide)

/-- Claim C5: whenever the requested amount exceeds the user's credit, both
charge-sale implementations return the "Insufficient credit" business
outcome and return the store exactly as it was — no credit, running-total
or sale-row change. -/
theorem C5_insufficient_credit (db : DB) (uid : Nat) (amount : Int) (pid sid : Nat)
    (u : User) (hfu : findUser db uid = some u) (hlt : u.credit < amount) :
    create_charge_sale db uid amount pid sid = (.insufficientCredit, db)
    ∧ create_charge db uid amount pid sid = (.insufficientCredit, db) := by
  constructor
  · simp [create_charge_sale, hfu, hlt]
  · rw [create_charge_eq]
    simp [create_charge_sale, hfu, hlt]

/-- Instantiation of Claim C5: user 1 holds 0 credit and requests a charge
of 5. -/
theorem C5_witness :
    create_charge_sale exDB0 1 5 1 1 = (.insufficientCredit, exDB0)
    ∧ create_charge exDB0 1 5 1 1 = (.insufficientCredit, exDB0) :=
  C5_insufficient_credit exDB0 1 5 1 1 { id := 1, credit := 0 } (by decide) (by decide)

/-- Claim C10: every successfully created charge sale carries
`status="APPROVED"` and `processed=True`, is therefore counted by the
reconciliation aggregates (which filter on exactly that pair), yet
"APPROVED" is not one of the declared `ChargeSale.STATUS_CHOICES`
(PENDING, COMPLETED, FAILED). -/
theorem C10_sale_status_approved (db : DB) (uid : Nat) (amount : Int) (pid sid : Nat)
    (u : User) (ph : PhoneNumber)
    (hfu : findUser db uid = some u) (hlt : ¬ u.credit < amount)
    (hfp : findPhone db pid = some ph) :
    (create_charge_sale db uid amount pid sid).1 = .ok (chargeRow uid amount pid sid)
    ∧ (create_charge db uid amount pid sid).1 = .ok (chargeRow uid amount pid sid)
    ∧ (chargeRow uid amount pid sid).status = "APPROVED"
    ∧ (chargeRow uid amount pid sid).processed = true
    ∧ txnCounted (chargeRow uid amount pid sid).status
        (chargeRow uid amount pid sid).processed = true
    ∧ ((chargeRow uid amount pid sid).user_id == uid
        && txnCounted (chargeRow uid amount pid sid).status
             (chargeRow uid amount pid sid).processed) = true
    ∧ chargeSalesSum (create_charge_sale db uid amount pid sid).2
        = chargeSalesSum db + amount
    ∧ "APPROVED" ∉ ChargeSale.STATUS_CHOICES.map Prod.fst := by
  have heq := create_charge_sale_eq db uid amount pid sid u ph hfu hlt hfp
  refine ⟨by rw [heq], by rw [create_charge_eq, heq], rfl, rfl, rfl,
    by simp [chargeRow, txnCounted], ?_, by decide⟩
  rw [heq]
  show (((db.chargeSales ++ [chargeRow uid amount pid sid]).filter
      (fun s => txnCounted s.status s.processed)).map (fun s => s.amount)).sum
    = chargeSalesSum db + amount
  rw [filter_map_sum_append]
  unfold chargeSalesSum
  norm_num [chargeRow, txnCounted]

/-- Instantiation of Claim C10 on the concrete post-approval store. -/
theorem C10_witness :
    (create_charge_sale exDB2 1 100 1 1).1 = .ok (chargeRow 1 100 1 1)
    ∧ (create_charge exDB2 1 100 1 1).1 = .ok (chargeRow 1 100 1 1)
    ∧ (chargeRow 1 100 1 1).status = "APPROVED"
    ∧ (chargeRow 1 100 1 1).processed = true
    ∧ txnCounted (chargeRow 1 100 1 1).status (chargeRow 1 100 1 1).processed = true
    ∧ ((chargeRow 1 100 1 1).user_id == 1
        && txnCounted (chargeRow 1 100 1 1).status (chargeRow 1 100 1 1).processed) = true
    ∧ chargeSalesSum (create_charge_sale exDB2 1 100 1 1).2 = chargeSalesSum exDB2 + 100
    ∧ "APPROVED" ∉ ChargeSale.STATUS_CHOICES.map Prod.fst :=
  C10_sale_status_approved exDB2 1 100 1 1 { id := 1, credit := 100 }
    { id := 1, number := "9120000000", is_active := true, current_charge := 0 }
    (by decide) (by decide) (by decide)

/-- Claim C1: in every state reachable from a freshly provisioned store,
every user's credit is non-negative both before and after any further valid
operation — in particular no `CreateChargeSale` ever drives a credit
negative. -/
theorem C1_credit_never_negative (db0 db : DB) (op : Op)
    (h0 : InitState db0) (hr : Reachable db0 db) (hv : ValidOp db op) :
    (∀ u ∈ db.users, 0 ≤ u.credit)
    ∧ (∀ u ∈ (applyOp db op).users, 0 ≤ u.credit) :=
  ⟨(inv_reachable db0 db h0 hr).1,
   (inv_applyOp 0 db op (inv_reachable db0 db h0 hr) hv).1⟩

/-- Instantiation of Claim C1: after create-request, approve and a
full-balance charge sale, credits are still non-negative, also after one
more charge-sale attempt. -/
theorem C1_witness :
    (∀ u ∈ exDB2.users, 0 ≤ u.credit)
    ∧ (∀ u ∈ (applyOp exDB2 (Op.chargeDRF 1 100 1 1)).users, 0 ≤ u.credit) := by
  have s1 : StepRel exDB0 exDB1 :=
    ⟨Op.createCreditReqDRF 1 100 1, ⟨by decide, by decide⟩, rfl⟩
  have s2 : StepRel exDB1 exDB2 := ⟨Op.approveDRF 1, trivial, rfl⟩
  have hr : Reachable exDB0 exDB2 :=
    Relation.ReflTransGen.tail (Relation.ReflTransGen.tail Relation.ReflTransGen.refl s1) s2
  exact C1_credit_never_negative exDB0 exDB2 (Op.chargeDRF 1 100 1 1)
    ⟨rfl, rfl, by decide, by decide⟩ hr (show (1 : Nat) ∈ userIds exDB2 by decide)

/-- Claim C9: validation is stable under repetition with no intervening
mutation, and after any valid operation sequence from a fresh store whose
approved credit total and completed sale total both equal `A`, the global
validation reports approved = spent = sales = A, current equal to the sum
of the users' starting credits, and `is_consistent = true`. -/
theorem C9_validate_roundtrip (db0 db : DB) (A : Int)
    (h0 : InitState db0) (hr : Reachable db0 db)
    (hA : approvedCreditsSum db = A) (hC : chargeSalesSum db = A) :
    validate_transactions db
      = { total_approved_credits := A
          current_user_credits := (db0.users.map (fun u => u.credit)).sum
          total_spent_credits := A
          total_charge_sales := A
          is_consistent := true
          details := "All transactions are consistent" }
    ∧ applyOp db Op.validateGlobal = db
    ∧ validate_transactions (applyOp db Op.validateGlobal) = validate_transactions db := by
  have hinv := inv_reachable db0 db h0 hr
  have hS : currentCreditsSum db = 0 := by
    have hacc := hinv.2.2.2.2
    rw [hA, hC] at hacc
    omega
  have hstart : (db0.users.map (fun u => u.credit)).sum = 0 := by
    apply List.sum_eq_zero
    intro x hx
    rcases List.mem_map.mp hx with ⟨u, hu, rfl⟩
    exact h0.2.2.1 u hu
  refine ⟨?_, rfl, rfl⟩
  unfold validate_transactions
  rw [hA, hC, hS, hstart]
  norm_num

/-- Instantiation of Claim C9 on the concrete scenario: request 100,
approve it, spend all 100 on a charge sale, then validate. -/
theorem C9_witness :
    validate_transactions exDB3
      = { total_approved_credits := 100
          current_user_credits := (exDB0.users.map (fun u => u.credit)).sum
          total_spent_credits := 100
          total_charge_sales := 100
          is_consistent := true
          details := "All transactions are consistent" }
    ∧ applyOp exDB3 Op.validateGlobal = exDB3
    ∧ validate_transactions (applyOp exDB3 Op.validateGlobal)
        = validate_transactions exDB3 := by
  have s1 : StepRel exDB0 exDB1 :=
    ⟨Op.createCreditReqDRF 1 100 1, ⟨by decide, by decide⟩, rfl⟩
  have s2 : StepRel exDB1 exDB2 := ⟨Op.approveDRF 1, trivial, rfl⟩
  have s3 : StepRel exDB2 exDB3 :=
    ⟨Op.chargeDRF 1 100 1 1, show (1 : Nat) ∈ userIds exDB2 by decide, rfl⟩
  have hr : Reachable exDB0 exDB3 :=
    Relation.ReflTransGen.tail
      (Relation.ReflTransGen.tail
        (Relation.ReflTransGen.tail Relation.ReflTransGen.refl s1) s2) s3
  exact C9_validate_roundtrip exDB0 exDB3 100 ⟨rfl, rfl, by decide, by decide⟩ hr
    (by decide) (by decide)

/-- Claim C2: the two approval implementations disagree about whose credit
grows.  The DRF `perform_approve` credits the request's owner (user 1), as
the claim states; the ninja `approve_transaction` credits the
authenticated caller (`request.auth.id`).  Concretely, when user 2
approves a request of amount 100 owned by user 1, the router implementation
still marks the request APPROVED but leaves the owner at 0 credit and gives
the 100 to user 2 — contradicting the claim, which the DRF implementation
satisfies on the same store. -/
theorem C2_router_credits_caller_not_owner :
    (approve_transaction exDBtwo 2 1).1
      = .ok { id := 1, user_id := 1, amount := 100,
              status := "APPROVED", processed := true }
    ∧ findUser (approve_transaction exDBtwo 2 1).2 1 = some { id := 1, credit := 0 }
    ∧ findUser (approve_transaction exDBtwo 2 1).2 2 = some { id := 2, credit := 100 }
    ∧ findUser (perform_approve exDBtwo 1).2 1 = some { id := 1, credit := 100 }
    ∧ findUser (perform_approve exDBtwo 1).2 2 = some { id := 2, credit := 0 } := by
  refine ⟨?_, ?_, ?_, ?_, ?_⟩ <;> decide

/-- Claim C6: only the DRF path validates the phone number.  On a store
whose only phone is inactive, the DRF serializer rejects the sale with a
ValidationError and mutates nothing, but the ninja `create_charge` happily
debits the user, credits the INACTIVE phone's running total and creates the
sale row — contradicting the claim, which the DRF implementation satisfies
on the same input. -/
theorem C6_router_charges_inactive_phone :
    drfCreateChargeSale exDBinactive 1 10 1 1
      = (.validationError "Invalid phone number", exDBinactive)
    ∧ (routerCreateChargeSale exDBinactive 1 10 1 1).1 = .ok (chargeRow 1 10 1 1)
    ∧ (routerCreateChargeSale exDBinactive 1 10 1 1).2
      = { users := [{ id := 1, credit := 40 }]
          phones := [{ id := 1, number := "9120000001", is_active := false,
                       current_charge := 10 }]
          creditRequests := []
          chargeSales := [chargeRow 1 10 1 1] } := by
  refine ⟨?_, ?_, ?_⟩ <;> decide

/-- Claim C7: both `CreateCreditRequest` implementations reject any
non-positive amount with a validation error and leave the store untouched;
for a positive amount each creates exactly one PENDING, unprocessed
`CreditRequest` row, returns it, and changes no user's credit. -/
theorem C7_create_credit_request (db : DB) (uid : Nat) (amount : Int) (rid : Nat) :
    (amount ≤ 0 →
      drfCreateCreditRequest db uid amount rid
          = (.validationError "Amount must be greater than 0", db)
      ∧ routerCreateCreditRequest db uid amount rid
          = (.validationError "amount must be greater than 0", db))
    ∧ (0 < amount →
      drfCreateCreditRequest db uid amount rid
          = (.created (creditRow uid amount rid),
             { db with creditRequests := db.creditRequests ++ [creditRow uid amount rid] })
      ∧ routerCreateCreditRequest db uid amount rid
          = (.created (creditRow uid amount rid),
             { db with creditRequests := db.creditRequests ++ [creditRow uid amount rid] })
      ∧ (drfCreateCreditRequest db uid amount rid).2.users = db.users
      ∧ (creditRow uid amount rid).status = "PENDING"
      ∧ (creditRow uid amount rid).processed = false) := by
  constructor
  · intro ha
    constructor
    · simp [drfCreateCreditRequest, ha]
    · simp [routerCreateCreditRequest, ha]
  · intro hpos
    have ha : ¬ amount ≤ 0 := by omega
    refine ⟨?_, ?_, ?_, rfl, rfl⟩
    · simp only [drfCreateCreditRequest, ha, if_false, creditRow]
    · simp only [routerCreateCreditRequest, ha, if_false, creditRow]
    · simp [drfCreateCreditRequest, ha]

/-- Instantiation of Claim C7 at amounts -3 (rejected) and 100 (created). -/
theorem C7_witness :
    (drfCreateCreditRequest exDB0 1 (-3) 1
        = (.validationError "Amount must be greater than 0", exDB0)
      ∧ routerCreateCreditRequest exDB0 1 (-3) 1
        = (.validationError "amount must be greater than 0", exDB0))
    ∧ (drfCreateCreditRequest exDB0 1 100 1
          = (.created (creditRow 1 100 1),
             { exDB0 with creditRequests := exDB0.creditRequests ++ [creditRow 1 100 1] })
      ∧ routerCreateCreditRequest exDB0 1 100 1
          = (.created (creditRow 1 100 1),
             { exDB0 with creditRequests := exDB0.creditRequests ++ [creditRow 1 100 1] })
      ∧ (drfCreateCreditRequest exDB0 1 100 1).2.users = exDB0.users
      ∧ (creditRow 1 100 1).status = "PENDING"
      ∧ (creditRow 1 100 1).processed = false) :=
  ⟨(C7_create_credit_request exDB0 1 (-3) 1).1 (by decide),
   (C7_create_credit_request exDB0 1 100 1).2 (by decide)⟩

/-- Claim C8: the global validation returns exactly the five figures of the
spec — approved = sum over APPROVED+processed credit requests, current =
sum of all credits, spent = approved - current, sales = sum over
APPROVED+processed charge sales, and `is_consistent` holds iff spent equals
sales — and writes nothing. -/
theorem C8_validate_global (db : DB) :
    (validate_transactions db).total_approved_credits
        = ((db.creditRequests.filter (fun c => c.status == "APPROVED" && c.processed)).map
            (fun c => c.amount)).sum
    ∧ (validate_transactions db).current_user_credits
        = (db.users.map (fun u => u.credit)).sum
    ∧ (validate_transactions db).total_spent_credits
        = (validate_transactions db).total_approved_credits
          - (validate_transactions db).current_user_credits
    ∧ (validate_transactions db).total_charge_sales
        = ((db.chargeSales.filter (fun s => s.status == "APPROVED" && s.processed)).map
            (fun s => s.amount)).sum
    ∧ ((validate_transactions db).is_consistent = true
        ↔ (validate_transactions db).total_spent_credits
            = (validate_transactions db).total_charge_sales)
    ∧ applyOp db Op.validateGlobal = db := by
  refine ⟨rfl, rfl, rfl, rfl, ?_, rfl⟩
  show ((approvedCreditsSum db - currentCreditsSum db - chargeSalesSum db).natAbs == 0) = true
      ↔ approvedCreditsSum db - currentCreditsSum db = chargeSalesSum db
  rw [beq_iff_eq, Int.natAbs_eq_zero, sub_eq_zero]

end Tbdl
